import Mathlib

/-!
Verification of the Wessaal Node layer: a relay that normalizes events from an
upstream messaging WebSocket into a stable envelope, forwards them to an HTTP
webhook with retries, and republishes them to per-instance rooms.

The JavaScript sources are shallowly embedded: JSON-like runtime values become
the inductive type `JSVal`; JavaScript truthiness, `||`/`&&` short-circuiting,
property access (absent properties read as `undefined`, here collapsed with
`null`, which is observationally equivalent under truthiness and `||`/`?.`),
`typeof`, `String(...)` coercion, `.slice`, `Object.keys` and `JSON.stringify`
become the executable functions below.  JavaScript string indices (UTF-16 code
units) are modelled by the character list of a Lean `String`.  Exceptions that
the sources catch are modelled by explicit oracle parameters, and network and
room-membership effects by oracle functions supplied to the embedded code.
-/

/-- A JSON-like JavaScript runtime value.  Object fields are listed in the
object's property-iteration order.  `null` also stands for `undefined`. -/
inductive JSVal where
  | null
  | boolV (b : Bool)
  | num (n : Int)
  | str (s : String)
  | arr (xs : List JSVal)
  | obj (fs : List (String × JSVal))

/-- JavaScript truthiness: `null`/`undefined`, `false`, `0` and `""` are falsy;
arrays and objects are always truthy. -/
def truthy : JSVal → Bool
  | .null => false
  | .boolV b => b
  | .num n => n != 0
  | .str s => s != ""
  | .arr _ => true
  | .obj _ => true

/-- JavaScript `a || b`: the first operand when truthy, otherwise the second. -/
def jsOr (a b : JSVal) : JSVal := if truthy a then a else b

/-- JavaScript `a && b`: the second operand when the first is truthy, otherwise
the first. -/
def jsAnd (a b : JSVal) : JSVal := if truthy a then b else a

/-- Look a key up in an object's field list (first match wins, as JavaScript
object keys are unique). -/
def findField : List (String × JSVal) → String → JSVal
  | [], _ => .null
  | (k, v) :: rest, key => if k = key then v else findField rest key

/-- Property access `v.key` as it is used in the sources: reading a named field
of an object; any other receiver yields `undefined` (collapsed with `null`). -/
def getField : JSVal → String → JSVal
  | .obj fs, key => findField fs key
  | _, _ => .null

/-- JavaScript `typeof`.  `typeof null` is `"object"`. -/
def jsTypeof : JSVal → String
  | .null => "object"
  | .boolV _ => "boolean"
  | .num _ => "number"
  | .str _ => "string"
  | .arr _ => "object"
  | .obj _ => "object"

/-- Whether `typeof v === "object" && v !== null` holds, i.e. `v` is an array
or a plain object. -/
def isNonNullObject : JSVal → Bool
  | .arr _ => true
  | .obj _ => true
  | _ => false

mutual
/-- JavaScript `String(v)` coercion for the value shapes the sources handle:
primitives print themselves, arrays join their elements with `","` (with null
elements rendered empty, per `Array.prototype.join`) and plain objects print
as `"[object Object]"`. -/
def jsToString : JSVal → String
  | .null => "null"
  | .boolV b => cond b "true" "false"
  | .num n => toString n
  | .str s => s
  | .arr xs => jsArrJoin xs
  | .obj _ => "[object Object]"
/-- Element-wise body of `Array.prototype.join(",")`. -/
def jsArrJoin : List JSVal → String
  | [] => ""
  | [JSVal.null] => ""
  | [v] => jsToString v
  | JSVal.null :: rest => "," ++ jsArrJoin rest
  | v :: rest => jsToString v ++ "," ++ jsArrJoin rest
end

mutual
/-- JavaScript `JSON.stringify` restricted to tree-shaped values, on which it
is total (the sources only catch its exceptions for circular structures, which
cannot arise here). -/
def jsonStringify : JSVal → String
  | .null => "null"
  | .boolV b => cond b "true" "false"
  | .num n => toString n
  | .str s => "\"" ++ s ++ "\""
  | .arr xs => "[" ++ jsonArrBody xs ++ "]"
  | .obj fs => "\x7b" ++ jsonObjBody fs ++ "\x7d"
/-- Comma-joined serializations of an array's elements. -/
def jsonArrBody : List JSVal → String
  | [] => ""
  | [v] => jsonStringify v
  | v :: rest => jsonStringify v ++ "," ++ jsonArrBody rest
/-- Comma-joined serializations of an object's fields. -/
def jsonObjBody : List (String × JSVal) → String
  | [] => ""
  | [(k, v)] => "\"" ++ k ++ "\":" ++ jsonStringify v
  | (k, v) :: rest => "\"" ++ k ++ "\":" ++ jsonStringify v ++ "," ++ jsonObjBody rest
end

/-- JavaScript `s.slice(0, n)`: the first `n` code units of the string. -/
def jsSlice (s : String) (n : Nat) : String := String.mk (s.data.take n)

/-- JavaScript `Object.keys`: field names of an object in iteration order,
index strings for arrays and strings, `[]` for other primitives. -/
def objKeys : JSVal → List String
  | .obj fs => fs.map Prod.fst
  | .arr xs => (List.range xs.length).map toString
  | .str s => (List.range s.length).map toString
  | _ => []

/-- Dynamic property access `p[k]` as used when iterating `Object.keys(p)`:
named fields for objects, index lookups for arrays and strings. -/
def getProp : JSVal → String → JSVal
  | .obj fs, key => findField fs key
  | .arr xs, key =>
    match key.toNat? with
    | some i => xs.getD i .null
    | none => .null
  | .str s, key =>
    match key.toNat? with
    | some i => if i < s.data.length then .str (String.mk [s.data.getD i ' ']) else .null
    | none => .null
  | _, _ => .null

/-- The normalized envelope produced by `formatEvent` (src/index.js).  `meta`
is an object holding at most the two diagnostic fields the source ever writes
(`meta.error`, `meta.normalizationError`); `raw`, when present, is the
serialized original payload.  The source field `instance` is a Lean keyword
and is embedded as `instanceVal`. -/
structure Envelope where
  version : String
  event : String
  receivedAt : String
  instanceVal : JSVal
  id : JSVal
  type : JSVal
  actor : JSVal
  body : JSVal
  metaError : Option String
  metaNormalizationError : Option String
  raw : Option String

/-- Outcome of one HTTP POST attempt as observed by the forwarder: a response
with a status code, or a transport-level failure (timeout, connection error). -/
inductive HttpOutcome where
  | status (code : Nat)
  | netError
deriving DecidableEq

/-- How a forwarder run ended: skipped because no backend URL is configured,
returned through the success path, or gave up after exhausting attempts. -/
inductive ForwardOutcome where
  | noBackend
  | accepted
  | gaveUp
deriving DecidableEq

namespace Idx

/-- The configuration the normalizer in src/index.js reads from the
environment: `INCLUDE_RAW` and `RAW_MAX` (default 512). -/
structure Config where
  includeRaw : Bool
  rawMax : Nat

/-- src/index.js `pickInstance`:
`(payload && (payload.instance || payload.instanceName || payload.data?.instance)) || "unknown"`. -/
def pickInstance (payload : JSVal) : JSVal :=
  jsOr
    (jsAnd payload
      (jsOr (getField payload "instance")
        (jsOr (getField payload "instanceName")
          (getField (getField payload "data") "instance"))))
    (JSVal.str "unknown")

/-- src/index.js `safeStringify`: serialize, and truncate to `maxLen` with a
`"...<truncated>"` marker when over budget.  The source's catch branches
(`String(obj).slice(0, maxLen)` and `"<unserializable>"`) handle exceptions of
`JSON.stringify`, which is total on the tree-shaped values modelled here, so
they are unreachable in the embedding and extraction never throws. -/
def safeStringify (maxLen : Nat) (v : JSVal) : String :=
  let s := jsonStringify v
  if s.length > maxLen then jsSlice s maxLen ++ "...<truncated>" else s

/-- The record built by src/index.js `extractMessage` for a truthy message
value.  The source fields `from` and `to` are Lean keywords and are embedded
as `fromVal` and `toVal`. -/
structure Msg where
  id : JSVal
  fromVal : JSVal
  toVal : JSVal
  text : JSVal
  ts : JSVal
  attachments : List JSVal
  attachmentsCount : JSVal

/-- src/index.js `extractMessage`: `null` for a falsy input, otherwise the
common message fields, each a `||`-chain over the known aliases; attachments
are projected to `{type, url, name}` when an array, replaced by a
`"<unknown-attachments>"` marker when truthy but not an array, else `[]`. -/
def extractMessage (m : JSVal) : Option Msg :=
  if truthy m then
    let attachments : List JSVal :=
      match getField m "attachments" with
      | JSVal.arr as =>
        as.map (fun a =>
          JSVal.obj [("type", getField a "type"), ("url", getField a "url"),
                     ("name", getField a "name")])
      | other => if truthy other then [JSVal.str "<unknown-attachments>"] else []
    some
      { id := jsOr (getField m "id") (jsOr (getField m "_id")
          (jsOr (getField m "messageId") JSVal.null))
        fromVal := jsOr (getField m "from") (jsOr (getField m "author")
          (jsOr (getField m "sender") JSVal.null))
        toVal := jsOr (getField m "to") (jsOr (getField m "recipients") JSVal.null)
        text := jsOr (getField m "text") (jsOr (getField m "body")
          (jsOr (jsAnd (getField m "content")
            (jsOr (getField (getField m "content") "text")
              (getField (getField m "content") "body"))) JSVal.null))
        ts := jsOr (getField m "timestamp") (jsOr (getField m "ts")
          (jsOr (getField m "createdAt") JSVal.null))
        attachments := attachments
        attachmentsCount := JSVal.num attachments.length }
  else none

/-- Optional chaining `m?.field` over the extracted message record: `undefined`
(collapsed with `null`) when the record is `null`. -/
def optMsg (mo : Option Msg) (f : Msg → JSVal) : JSVal :=
  match mo with
  | some m => f m
  | none => JSVal.null

/-- The record built by src/index.js `extractContact`. -/
structure Contact where
  id : JSVal
  name : JSVal
  phones : List JSVal
  emails : List JSVal

/-- JavaScript `[].concat(v)`: arrays are spread, any other value becomes a
one-element list. -/
def concatVal : JSVal → List JSVal
  | JSVal.arr xs => xs
  | x => [x]

/-- src/index.js `extractContact`: `null` for a falsy input, otherwise id and
name `||`-chains plus phone/email lists normalized through
`[].concat(...).filter(Boolean)`. -/
def extractContact (c : JSVal) : Option Contact :=
  if truthy c then
    some
      { id := jsOr (getField c "id") (jsOr (getField c "_id")
          (jsOr (getField c "contactId") JSVal.null))
        name := jsOr (getField c "name") (jsOr (getField c "fullName")
          (jsOr (getField c "displayName") JSVal.null))
        phones := (concatVal (jsOr (getField c "phone")
          (jsOr (getField c "phones") (JSVal.arr [])))).filter truthy
        emails := (concatVal (jsOr (getField c "email")
          (jsOr (getField c "emails") (JSVal.arr [])))).filter truthy }
  else none

/-- Optional chaining over the extracted contact record, for list-valued
fields: `c?.field || []` reads as `[]` when the record is `null`. -/
def contactList (co : Option Contact) (f : Contact → List JSVal) : List JSVal :=
  match co with
  | some c => f c
  | none => []

/-- Optional chaining `c?.field` over the extracted contact record. -/
def optContact (co : Option Contact) (f : Contact → JSVal) : JSVal :=
  match co with
  | some c => f c
  | none => JSVal.null

/-- The `envelope.type` computed by the `default` branch of src/index.js
`formatEvent`: the payload's own `type` or `eventType` field, else
`"generic"`, for non-null objects; `typeof payload` otherwise. -/
def genericType (payload : JSVal) : JSVal :=
  if isNonNullObject payload then
    jsOr (getField payload "type") (jsOr (getField payload "eventType") (JSVal.str "generic"))
  else JSVal.str (jsTypeof payload)

/-- Per-key size cap of the `default` branch: strings longer than 512 are cut
to 128 characters plus `"..."`, arrays keep their first 3 elements, nested
objects are replaced by the `"<object>"` placeholder, other values pass
through. -/
def shrinkVal : JSVal → JSVal
  | JSVal.str s => if s.length > 512 then JSVal.str (jsSlice s 128 ++ "...") else JSVal.str s
  | JSVal.arr xs => JSVal.arr (xs.take 3)
  | JSVal.obj _ => JSVal.str "<object>"
  | other => other

/-- src/index.js `genericBody`: `null` for a falsy payload, else an object of
the first 6 top-level keys, each value size-capped by `shrinkVal`.  The
per-key try/catch of the source guards property-getter exceptions, which
cannot arise on the data values modelled here. -/
def genericBody (p : JSVal) : JSVal :=
  if truthy p then
    JSVal.obj (((objKeys p).take 6).map (fun k => (k, shrinkVal (getProp p k))))
  else JSVal.null

/-- Body of the `case "qrcode.updated"` / `case "connection.update"` blocks of
src/index.js `formatEvent`: full verbatim payload as body, and an untruncated
`JSON.stringify` of the payload as `raw`, set unconditionally (not gated by
`INCLUDE_RAW`).  The source's catch fallbacks around the body assignment and
the serialization are unreachable here (both operations are total). -/
def fullPayloadCase (typeName : String) (env : Envelope) (payload : JSVal) : Envelope :=
  { env with
    type := JSVal.str typeName
    body := payload
    raw := some (jsonStringify payload) }

/-- src/index.js `formatEvent`.  `now` is the `new Date().toISOString()`
timestamp.  `exc` is the exception oracle for the event-specific extraction:
`some e` means the switch body raised with description `String(e)` (as real
payloads can force, e.g. a `null` element inside `attachments` making
`a.type` throw), modelled as raising before completing any per-event
assignment, upon which the catch block applies; `none` means it ran to
completion.  The JavaScript `switch` places `default` before
`case "qrcode.updated"` without a `break`, so an unrecognized event name
executes the generic branch and then falls through into the qrcode branch,
which overwrites `type`, `body` and `raw`; the embedding reproduces that
fall-through. -/
def formatEvent (cfg : Config) (now : String) (eventName : String) (payload : JSVal)
    (exc : Option String) : Envelope :=
  let envelope : Envelope :=
    { version := "1.0"
      event := eventName
      receivedAt := now
      instanceVal := pickInstance payload
      id := JSVal.null
      type := JSVal.null
      actor := JSVal.null
      body := JSVal.null
      metaError := none
      metaNormalizationError := none
      raw := none }
  match exc with
  | some e =>
    { envelope with
      body := JSVal.null
      metaError := some "normalization_failed"
      metaNormalizationError := some e }
  | none =>
    if eventName = "messages.upsert" then
      let msg := jsOr (getField payload "message") payload
      let m := extractMessage msg
      { envelope with
        id := jsOr (optMsg m (fun x => x.id)) JSVal.null
        type := JSVal.str "message"
        actor := jsOr (optMsg m (fun x => x.fromVal)) JSVal.null
        body := JSVal.obj
          [("id", jsOr (optMsg m (fun x => x.id)) JSVal.null),
           ("from", jsOr (optMsg m (fun x => x.fromVal)) JSVal.null),
           ("snippet", jsOr (jsAnd (optMsg m (fun x => x.text))
             (JSVal.str (jsSlice (jsToString (optMsg m (fun x => x.text))) 256))) JSVal.null),
           ("timestamp", jsOr (optMsg m (fun x => x.ts)) JSVal.null),
           ("attachmentsCount", jsOr (optMsg m (fun x => x.attachmentsCount)) (JSVal.num 0))]
        raw := if cfg.includeRaw then some (safeStringify cfg.rawMax payload) else none }
    else if eventName = "contacts.update" then
      let contact := jsOr (getField payload "contact") payload
      let c := extractContact contact
      { envelope with
        id := jsOr (optContact c (fun x => x.id)) JSVal.null
        type := JSVal.str "contact"
        body := JSVal.obj
          [("id", jsOr (optContact c (fun x => x.id)) JSVal.null),
           ("name", jsOr (optContact c (fun x => x.name)) JSVal.null),
           ("phones", JSVal.arr ((contactList c (fun x => x.phones)).take 3)),
           ("emails", JSVal.arr ((contactList c (fun x => x.emails)).take 2))]
        raw := if cfg.includeRaw then some (safeStringify cfg.rawMax payload) else none }
    else if eventName = "chats.update" then
      let chat := jsOr (getField payload "chat") payload
      let cid := jsOr (getField chat "id") (jsOr (getField chat "_id") JSVal.null)
      { envelope with
        id := cid
        type := JSVal.str "chat"
        body := JSVal.obj
          [("id", cid),
           ("title", jsOr (getField chat "title") (jsOr (getField chat "name") JSVal.null)),
           ("participantsCount",
             match getField chat "participants" with
             | JSVal.arr xs => JSVal.num xs.length
             | _ => JSVal.null)]
        raw := if cfg.includeRaw then some (safeStringify cfg.rawMax payload) else none }
    else if eventName = "qrcode.updated" then
      fullPayloadCase "qrcode" envelope payload
    else if eventName = "connection.update" then
      fullPayloadCase "connection" envelope payload
    else
      let afterDefault :=
        { envelope with
          type := genericType payload
          body := genericBody payload
          raw := if cfg.includeRaw then some (safeStringify cfg.rawMax payload) else none }
      fullPayloadCase "qrcode" afterDefault payload

end Idx

namespace Bridge

/-- The `validateStatus` option src/bridge.js passes to its HTTP client:
`(s) => s >= 200 && s < 500`, so 4xx responses resolve the request instead of
throwing — a 4xx is deliberately non-retryable. -/
def validateStatus (s : Nat) : Bool := 200 ≤ s && s < 500

/-- Whether one POST attempt resolves under `validateStatus`: transport
failures and status codes outside [200, 500) throw and are caught by the
retry loop. -/
def attemptResolves : HttpOutcome → Bool
  | .status c => validateStatus c
  | .netError => false

/-- The `while (attempt < FORWARD_RETRIES)` loop of src/bridge.js
`sendToBackend`, with `resp n` the outcome of the POST made while the
`attempt` counter equals `n`.  The remaining iteration budget
`retries - attempt` is passed as the third (structurally decreasing)
argument; a resolved attempt returns at once, a caught failure increments
the counter, sleeps `1000 * attempt` ms (time is not modelled) and loops,
and exhaustion logs and returns.  Every failure path is caught inside the
loop, so the function is total: it never throws to its caller. -/
def forwardLoop (resp : Nat → HttpOutcome) (attempt : Nat) : Nat → Nat × ForwardOutcome
  | 0 => (attempt, ForwardOutcome.gaveUp)
  | fuel + 1 =>
    if attemptResolves (resp attempt) then (attempt + 1, ForwardOutcome.accepted)
    else forwardLoop resp (attempt + 1) fuel

/-- src/bridge.js `sendToBackend`: an immediate no-op when no `BACKEND_URL` is
configured, otherwise the bounded retry loop starting at attempt 0 with
`retries` = `FORWARD_RETRIES` (default 3).  The result is the number of POST
attempts performed and how the run ended. -/
def sendToBackend (backendUrl : String) (retries : Nat) (resp : Nat → HttpOutcome) :
    Nat × ForwardOutcome :=
  if backendUrl = "" then (0, ForwardOutcome.noBackend) else forwardLoop resp 0 retries

end Bridge

namespace Idx

/-- The default `validateStatus` of the HTTP client used by src/index.js
`sendToBackend` (which passes none): only 2xx resolves, anything else throws
into the catch block. -/
def resolves2xx : HttpOutcome → Bool
  | .status c => 200 ≤ c && c < 300
  | .netError => false

/-- The `for (let attempt = 1; attempt <= maxTries; attempt++)` loop of
src/index.js `sendToBackend`: the fuel argument is the number of tries left;
a resolved POST returns, a caught failure sleeps and continues, and the last
failure logs "Giving up" and falls out of the loop.  Total: never throws. -/
def forwardLoop (resp : Nat → HttpOutcome) (attempt : Nat) : Nat → Nat × ForwardOutcome
  | 0 => (attempt, ForwardOutcome.gaveUp)
  | fuel + 1 =>
    if resolves2xx (resp attempt) then (attempt + 1, ForwardOutcome.accepted)
    else forwardLoop resp (attempt + 1) fuel

/-- src/index.js `sendToBackend`: skip with a warning when `BACKEND_URL` is
unset, otherwise post with `maxTries = 2`, retrying on any caught error
(there is no `validateStatus` here, so 4xx also throws and retries). -/
def sendToBackend (backendUrl : String) (resp : Nat → HttpOutcome) : Nat × ForwardOutcome :=
  if backendUrl = "" then (0, ForwardOutcome.noBackend) else forwardLoop resp 0 2

end Idx

namespace Server

/-- src/server.js `emitToInstance`: compute `inst:` + (`formatted.instance ||
"unknown"`) and emit `evolution:event` to that room.  The fan-out primitive
`ioFront.to(room).emit` is modelled by its interface: it delivers the
envelope to each of the room's current members (`rooms room` of them), and
to nobody else. -/
def emitToInstance (rooms : String → Nat) (formatted : Envelope) : List (String × Envelope) :=
  let inst := jsOr formatted.instanceVal (JSVal.str "unknown")
  let room := "inst:" ++ jsToString inst
  List.replicate (rooms room) (room, formatted)

end Server

namespace Track

/-- The `emitToInstance` of the deep-logging variant (src/unnamed/part_002):
reads the room's active listener count from the fan-out server's adapter
(`rooms.get(room)?.size || 0`), emits to the room only when it is positive,
and otherwise logs a DROP and discards the event — nothing is queued or
retried.  Total: never raises past its boundary. -/
def emitToInstance (rooms : String → Nat) (formatted : Envelope) : List (String × Envelope) :=
  let inst := jsOr formatted.instanceVal (JSVal.str "unknown")
  let room := "inst:" ++ jsToString inst
  let activeListeners := rooms room
  if activeListeners > 0 then List.replicate activeListeners (room, formatted) else []

end Track

/-- The room key an envelope is published to: `"inst:" + (instance ||
"unknown")`. -/
def roomKey (env : Envelope) : String :=
  "inst:" ++ jsToString (jsOr env.instanceVal (JSVal.str "unknown"))

namespace Idx

/-- One observable step of the dispatcher: a forwarding attempt sequence for
an envelope (with its attempt count and outcome), or a publish of an envelope
(with the per-member deliveries it produced). -/
inductive Action where
  | forward (env : Envelope) (attempts : Nat) (outcome : ForwardOutcome)
  | publish (env : Envelope) (deliveries : List (String × Envelope))

/-- The body shared by both src/index.js event handlers (the per-event
`socket.on` handler and the `socket.onAny` handler): format the event, await
`sendToBackend` (which absorbs all delivery failures), then call
`emitToInstance` from src/server.js.  The surrounding try/catch never fires
in the embedding because every step is total. -/
def handleAny (cfg : Config) (backendUrl : String) (now evt : String) (payload : JSVal)
    (exc : Option String) (resp : Nat → HttpOutcome) (rooms : String → Nat) : List Action :=
  let formatted := formatEvent cfg now evt payload exc
  let sent := sendToBackend backendUrl resp
  [Action.forward formatted sent.1 sent.2,
   Action.publish formatted (Server.emitToInstance rooms formatted)]

/-- The subscription wiring of src/index.js: with a non-empty `FORWARD_EVENTS`
list one handler is registered per listed name (so only listed events are
observed), otherwise a single `socket.onAny` handler observes every event.
The result is the action trace the arrival of `(evt, payload)` produces. -/
def dispatch (forwardEvents : List String) (cfg : Config) (backendUrl : String)
    (now evt : String) (payload : JSVal) (exc : Option String)
    (resp : Nat → HttpOutcome) (rooms : String → Nat) : List Action :=
  if forwardEvents.length > 0 then
    if forwardEvents.contains evt then handleAny cfg backendUrl now evt payload exc resp rooms
    else []
  else handleAny cfg backendUrl now evt payload exc resp rooms

end Idx

theorem truthy_ne_null {v : JSVal} (h : truthy v = true) : v ≠ JSVal.null := by
  intro he
  subst he
  simp [truthy] at h

theorem truthy_ne_empty {v : JSVal} (h : truthy v = true) : v ≠ JSVal.str "" := by
  intro he
  subst he
  simp [truthy] at h

/-- C3: the envelope's instance equals the first non-empty (truthy) value among
`payload.instance`, `payload.instanceName`, `payload.data.instance`, in that
priority order — in particular the top-level `payload.instance` wins whenever
it is present — and is the sentinel `"unknown"` when all three are absent or
empty; it is never `null` and never the empty string. -/
theorem pickInstance_priority (payload : JSVal) :
    Idx.pickInstance payload =
      (if truthy (getField payload "instance") then getField payload "instance"
       else if truthy (getField payload "instanceName") then getField payload "instanceName"
       else if truthy (getField (getField payload "data") "instance") then
         getField (getField payload "data") "instance"
       else JSVal.str "unknown")
    ∧ Idx.pickInstance payload ≠ JSVal.null
    ∧ Idx.pickInstance payload ≠ JSVal.str "" := by
  have key : Idx.pickInstance payload =
      (if truthy (getField payload "instance") then getField payload "instance"
       else if truthy (getField payload "instanceName") then getField payload "instanceName"
       else if truthy (getField (getField payload "data") "instance") then
         getField (getField payload "data") "instance"
       else JSVal.str "unknown") := by
    by_cases hp : truthy payload = true
    · simp only [Idx.pickInstance, jsAnd, jsOr, hp, if_true]
      split_ifs <;> simp_all
    · cases payload <;> simp_all [Idx.pickInstance, jsAnd, jsOr, getField, truthy]
  refine ⟨key, ?_, ?_⟩ <;> rw [key] <;> split_ifs <;>
    first
      | (apply truthy_ne_null; assumption)
      | (apply truthy_ne_empty; assumption)
      | simp

/-- C5: on an internal extraction error (exception oracle `some e`),
`formatEvent` still returns an envelope — the minimal one, with `body` null,
`meta.error = "normalization_failed"` and the error's string description in
`meta.normalizationError` — instead of propagating; being a total function,
it never fails outward for any event name or payload. -/
theorem formatEvent_error_envelope (cfg : Idx.Config) (t evt : String) (payload : JSVal)
    (e : String) :
    (Idx.formatEvent cfg t evt payload (some e)).metaError = some "normalization_failed"
    ∧ (Idx.formatEvent cfg t evt payload (some e)).metaNormalizationError = some e
    ∧ (Idx.formatEvent cfg t evt payload (some e)).body = JSVal.null
    ∧ (Idx.formatEvent cfg t evt payload (some e)).id = JSVal.null
    ∧ (Idx.formatEvent cfg t evt payload (some e)).type = JSVal.null
    ∧ (Idx.formatEvent cfg t evt payload (some e)).actor = JSVal.null
    ∧ (Idx.formatEvent cfg t evt payload (some e)).raw = none
    ∧ (Idx.formatEvent cfg t evt payload (some e)).version = "1.0"
    ∧ (Idx.formatEvent cfg t evt payload (some e)).event = evt
    ∧ (Idx.formatEvent cfg t evt payload (some e)).instanceVal = Idx.pickInstance payload :=
  ⟨rfl, rfl, rfl, rfl, rfl, rfl, rfl, rfl, rfl, rfl⟩

/-- C9: normalization is deterministic up to the timestamp — two runs of
`formatEvent` on the same (event name, payload) pair (and the same extraction
outcome), differing only in the clock reading, produce envelopes equal in
every field except `receivedAt`. -/
theorem formatEvent_deterministic (cfg : Idx.Config) (t1 t2 evt : String) (payload : JSVal)
    (exc : Option String) :
    { Idx.formatEvent cfg t1 evt payload exc with
        receivedAt := (Idx.formatEvent cfg t2 evt payload exc).receivedAt }
      = Idx.formatEvent cfg t2 evt payload exc := by
  unfold Idx.formatEvent
  cases exc with
  | some e => rfl
  | none => split_ifs <;> rfl

/-- C1 (defect witness): for the unrecognized event name `"unknown.event"`
and a 7-key object payload, the missing `break` after the `default` branch of
src/index.js `formatEvent` (which sits physically before
`case "qrcode.updated"`) makes execution fall through into the qrcode branch:
the returned envelope's type is `"qrcode"` — not the `"generic"` type the
generic rule computes — its body is the full uncapped 7-key payload rather
than the first 6 size-capped keys, and `raw` is set although `INCLUDE_RAW`
is disabled; the discarded `genericType`/`genericBody` computation would
have produced the claimed 6-key capped body. -/
theorem formatEvent_default_fallthrough :
    ∀ p, p = JSVal.obj [("a", JSVal.num 1), ("b", JSVal.num 2), ("c", JSVal.num 3),
      ("d", JSVal.num 4), ("e", JSVal.num 5), ("f", JSVal.num 6), ("g", JSVal.num 7)] →
    (Idx.formatEvent ⟨false, 512⟩ "2026-01-01T00:00:00.000Z" "unknown.event" p none).type
        = JSVal.str "qrcode"
    ∧ Idx.genericType p = JSVal.str "generic"
    ∧ (Idx.formatEvent ⟨false, 512⟩ "2026-01-01T00:00:00.000Z" "unknown.event" p none).type
        ≠ Idx.genericType p
    ∧ (Idx.formatEvent ⟨false, 512⟩ "2026-01-01T00:00:00.000Z" "unknown.event" p none).body = p
    ∧ (objKeys (Idx.formatEvent ⟨false, 512⟩ "2026-01-01T00:00:00.000Z" "unknown.event"
        p none).body).length = 7
    ∧ (Idx.formatEvent ⟨false, 512⟩ "2026-01-01T00:00:00.000Z" "unknown.event" p none).raw
        = some (jsonStringify p)
    ∧ (objKeys (Idx.genericBody p)).length = 6 := by
  rintro p rfl
  refine ⟨rfl, rfl, ?_, rfl, rfl, rfl, rfl⟩
  intro h
  have h2 : JSVal.str "qrcode" = JSVal.str "generic" := h
  simp at h2

/-- C1 (defect witness application): the fall-through evaluation at the
concrete 7-key payload. -/
theorem formatEvent_default_fallthrough_witness :
    (Idx.formatEvent ⟨false, 512⟩ "2026-01-01T00:00:00.000Z" "unknown.event"
        (JSVal.obj [("a", JSVal.num 1), ("b", JSVal.num 2), ("c", JSVal.num 3),
          ("d", JSVal.num 4), ("e", JSVal.num 5), ("f", JSVal.num 6),
          ("g", JSVal.num 7)]) none).type = JSVal.str "qrcode"
    ∧ Idx.genericType (JSVal.obj [("a", JSVal.num 1), ("b", JSVal.num 2), ("c", JSVal.num 3),
        ("d", JSVal.num 4), ("e", JSVal.num 5), ("f", JSVal.num 6),
        ("g", JSVal.num 7)]) = JSVal.str "generic" :=
  ⟨(formatEvent_default_fallthrough _ rfl).1, (formatEvent_default_fallthrough _ rfl).2.1⟩

/-- C4 (counterexample): with the raw-payload flag disabled, the envelopes for
`qrcode.updated`, `connection.update` and an unrecognized event name all
carry a `raw` field, refuting "present only when the raw-payload
configuration flag is enabled". -/
theorem raw_present_without_flag :
    (Idx.formatEvent ⟨false, 512⟩ "2026-01-01T00:00:00.000Z" "qrcode.updated"
      (JSVal.obj []) none).raw = some "\x7b\x7d"
    ∧ (Idx.formatEvent ⟨false, 512⟩ "2026-01-01T00:00:00.000Z" "connection.update"
      (JSVal.obj []) none).raw = some "\x7b\x7d"
    ∧ (Idx.formatEvent ⟨false, 512⟩ "2026-01-01T00:00:00.000Z" "custom.event"
      (JSVal.obj []) none).raw = some "\x7b\x7d"
    ∧ (some "\x7b\x7d" ≠ (none : Option String)) :=
  ⟨rfl, rfl, rfl, by simp⟩

/-- C4 (amended): for the three minimizing event kinds (`messages.upsert`,
`contacts.update`, `chats.update`) the `raw` field is present exactly when the
raw-payload flag is enabled, and is then the JSON serialization truncated to
the configured budget; for every other event name (`qrcode.updated`,
`connection.update`, and unrecognized names via the default fall-through)
`raw` is always present and is the full untruncated serialization.  When the
budget applies, the serialization is cut to `rawMax` characters with the
`"...<truncated>"` marker exactly when it exceeds the budget; extraction is
total, hence never throws. -/
theorem raw_inclusion_amended (cfg : Idx.Config) (t : String) (payload : JSVal) :
    ((Idx.formatEvent cfg t "messages.upsert" payload none).raw =
      if cfg.includeRaw then some (Idx.safeStringify cfg.rawMax payload) else none)
    ∧ ((Idx.formatEvent cfg t "contacts.update" payload none).raw =
      if cfg.includeRaw then some (Idx.safeStringify cfg.rawMax payload) else none)
    ∧ ((Idx.formatEvent cfg t "chats.update" payload none).raw =
      if cfg.includeRaw then some (Idx.safeStringify cfg.rawMax payload) else none)
    ∧ (∀ evt : String, evt ≠ "messages.upsert" → evt ≠ "contacts.update" →
        evt ≠ "chats.update" →
        (Idx.formatEvent cfg t evt payload none).raw = some (jsonStringify payload))
    ∧ ((jsonStringify payload).length > cfg.rawMax →
        Idx.safeStringify cfg.rawMax payload
          = jsSlice (jsonStringify payload) cfg.rawMax ++ "...<truncated>")
    ∧ ((jsonStringify payload).length ≤ cfg.rawMax →
        Idx.safeStringify cfg.rawMax payload = jsonStringify payload) := by
  refine ⟨rfl, rfl, rfl, ?_, ?_, ?_⟩
  · intro evt h1 h2 h3
    simp only [Idx.formatEvent]
    rw [if_neg h1, if_neg h2, if_neg h3]
    split_ifs <;> rfl
  · intro h
    simp [Idx.safeStringify, h]
  · intro h
    simp [Idx.safeStringify, Nat.not_lt.mpr h]

/-- C4 (witness): a concrete unrecognized event whose `raw` is the full
serialization, and a concrete over-budget payload that gets truncated with
the marker. -/
theorem raw_inclusion_witness :
    (Idx.formatEvent ⟨true, 10⟩ "2026-01-01T00:00:00.000Z" "status.find"
      (JSVal.obj [("a", JSVal.str "0123456789")]) none).raw
      = some (jsonStringify (JSVal.obj [("a", JSVal.str "0123456789")]))
    ∧ Idx.safeStringify 10 (JSVal.obj [("a", JSVal.str "0123456789")])
      = jsSlice (jsonStringify (JSVal.obj [("a", JSVal.str "0123456789")])) 10
        ++ "...<truncated>" :=
  ⟨(raw_inclusion_amended ⟨true, 10⟩ "2026-01-01T00:00:00.000Z"
      (JSVal.obj [("a", JSVal.str "0123456789")])).2.2.2.1 "status.find"
      (by decide) (by decide) (by decide),
   (raw_inclusion_amended ⟨true, 10⟩ "2026-01-01T00:00:00.000Z"
      (JSVal.obj [("a", JSVal.str "0123456789")])).2.2.2.2.1 (by decide)⟩

/-- C2: against an endpoint answering HTTP 500 on every attempt, the bridge
forwarder performs exactly the configured number of attempts
(`FORWARD_RETRIES`) and then gives up, returning normally; against an
endpoint answering HTTP 400 it performs exactly one attempt and returns — a
4xx resolves under `validateStatus`, so it is never retried and consumes no
retry. -/
theorem sendToBackend_retry_policy (url : String) (retries : Nat)
    (resp500 resp400 : Nat → HttpOutcome) (hu : url ≠ "") (hr : 1 ≤ retries)
    (h5 : ∀ n, resp500 n = HttpOutcome.status 500)
    (h4 : resp400 0 = HttpOutcome.status 400) :
    Bridge.sendToBackend url retries resp500 = (retries, ForwardOutcome.gaveUp)
    ∧ Bridge.sendToBackend url retries resp400 = (1, ForwardOutcome.accepted) := by
  constructor
  · have main : ∀ fuel a, Bridge.forwardLoop resp500 a fuel
        = (a + fuel, ForwardOutcome.gaveUp) := by
      intro fuel
      induction fuel with
      | zero => intro a; simp [Bridge.forwardLoop]
      | succ f ih =>
        intro a
        have hfail : Bridge.attemptResolves (resp500 a) = false := by
          rw [h5 a]; decide
        simp [Bridge.forwardLoop, hfail, ih (a + 1), Prod.ext_iff]
        omega
    unfold Bridge.sendToBackend
    rw [if_neg hu]
    simpa using main retries 0
  · obtain ⟨f, rfl⟩ : ∃ f, retries = f + 1 := ⟨retries - 1, by omega⟩
    have hok : Bridge.attemptResolves (resp400 0) = true := by
      rw [h4]; decide
    unfold Bridge.sendToBackend
    rw [if_neg hu]
    simp [Bridge.forwardLoop, hok]

/-- C2 (witness): with a configured URL and 3 configured retries, an
all-500 endpoint consumes exactly 3 attempts and ends in give-up, while a
400 endpoint consumes exactly one attempt. -/
theorem sendToBackend_retry_policy_witness :
    Bridge.sendToBackend "https://backend.example/webhook" 3
        (fun _k => HttpOutcome.status 500) = (3, ForwardOutcome.gaveUp)
    ∧ Bridge.sendToBackend "https://backend.example/webhook" 3
        (fun _k => HttpOutcome.status 400) = (1, ForwardOutcome.accepted) :=
  sendToBackend_retry_policy "https://backend.example/webhook" 3
    (fun _k => HttpOutcome.status 500) (fun _k => HttpOutcome.status 400)
    (by decide) (by decide) (fun n => rfl) rfl

/-- C6: in both subscription modes, every observed event leads the dispatcher
to attempt both forwarding and publishing of the same normalized envelope:
the trace contains a forward action for the envelope (whatever the network
oracle replies, i.e. regardless of publish outcome) and a publish action for
it (even when forwarding terminally fails, since `sendToBackend` absorbs all
failures), and when normalization degraded (exception oracle `some e`) the
delivered envelope still carries its error annotation. -/
theorem dispatcher_both_attempted (fe : List String) (cfg : Idx.Config) (url t evt : String)
    (payload : JSVal) (exc : Option String) (resp : Nat → HttpOutcome)
    (rooms : String → Nat) (hobs : fe = [] ∨ fe.contains evt = true) :
    (∃ a o, Idx.Action.forward (Idx.formatEvent cfg t evt payload exc) a o
        ∈ Idx.dispatch fe cfg url t evt payload exc resp rooms)
    ∧ (∃ ds, Idx.Action.publish (Idx.formatEvent cfg t evt payload exc) ds
        ∈ Idx.dispatch fe cfg url t evt payload exc resp rooms)
    ∧ (∀ e, exc = some e →
        (Idx.formatEvent cfg t evt payload exc).metaError = some "normalization_failed") := by
  have htr : Idx.dispatch fe cfg url t evt payload exc resp rooms
      = Idx.handleAny cfg url t evt payload exc resp rooms := by
    rcases hobs with h | h
    · subst h; rfl
    · unfold Idx.dispatch
      rcases fe with _ | ⟨x, xs⟩
      · rfl
      · have hlen : (x :: xs).length > 0 := by simp
        rw [if_pos hlen, if_pos h]
  have hh : Idx.handleAny cfg url t evt payload exc resp rooms
      = [Idx.Action.forward (Idx.formatEvent cfg t evt payload exc)
            (Idx.sendToBackend url resp).1 (Idx.sendToBackend url resp).2,
         Idx.Action.publish (Idx.formatEvent cfg t evt payload exc)
            (Server.emitToInstance rooms (Idx.formatEvent cfg t evt payload exc))] := rfl
  rw [htr, hh]
  refine ⟨⟨_, _, List.mem_cons_self _ _⟩,
          ⟨_, List.mem_cons_of_mem _ (List.mem_cons_self _ _)⟩, ?_⟩
  intro e he
  subst he
  rfl

/-- C6 (witness): in catch-all mode (empty allow-list), a concrete event with
a degraded normalization still yields both a forward and a publish action of
the degraded envelope. -/
theorem dispatcher_both_attempted_witness :
    (∃ a o, Idx.Action.forward (Idx.formatEvent ⟨false, 512⟩ "2026-01-01T00:00:00.000Z"
          "messages.upsert" (JSVal.obj []) (some "TypeError")) a o
        ∈ Idx.dispatch [] ⟨false, 512⟩ "" "2026-01-01T00:00:00.000Z" "messages.upsert"
          (JSVal.obj []) (some "TypeError") (fun _n => HttpOutcome.netError) (fun _r => 0))
    ∧ (∃ ds, Idx.Action.publish (Idx.formatEvent ⟨false, 512⟩ "2026-01-01T00:00:00.000Z"
          "messages.upsert" (JSVal.obj []) (some "TypeError")) ds
        ∈ Idx.dispatch [] ⟨false, 512⟩ "" "2026-01-01T00:00:00.000Z" "messages.upsert"
          (JSVal.obj []) (some "TypeError") (fun _n => HttpOutcome.netError) (fun _r => 0))
    ∧ (∀ e, (some "TypeError" : Option String) = some e →
        (Idx.formatEvent ⟨false, 512⟩ "2026-01-01T00:00:00.000Z" "messages.upsert"
          (JSVal.obj []) (some "TypeError")).metaError = some "normalization_failed") :=
  dispatcher_both_attempted [] ⟨false, 512⟩ "" "2026-01-01T00:00:00.000Z" "messages.upsert"
    (JSVal.obj []) (some "TypeError") (fun _n => HttpOutcome.netError) (fun _r => 0)
    (Or.inl rfl)

/-- C7: publishing an envelope whose instance room has zero active
subscribers delivers the event to no room at all — in both the checking
publisher (part_002, which drops explicitly) and the plain one (server.js,
whose emit to an empty room reaches no member) — and never raises (both are
total); in general every delivery either publisher makes goes to the room
derived from the envelope's instance, and a dropped event is not queued or
retried (the returned delivery list is the publisher's entire effect). -/
theorem publish_zero_subscribers (rooms : String → Nat) (env : Envelope) :
    (rooms (roomKey env) = 0 →
      Track.emitToInstance rooms env = [] ∧ Server.emitToInstance rooms env = [])
    ∧ (∀ d ∈ Track.emitToInstance rooms env, d.1 = roomKey env)
    ∧ (∀ d ∈ Server.emitToInstance rooms env, d.1 = roomKey env) := by
  have htrack : Track.emitToInstance rooms env
      = if rooms (roomKey env) > 0 then
          List.replicate (rooms (roomKey env)) (roomKey env, env)
        else [] := rfl
  have hserv : Server.emitToInstance rooms env
      = List.replicate (rooms (roomKey env)) (roomKey env, env) := rfl
  refine ⟨?_, ?_, ?_⟩
  · intro h
    rw [htrack, hserv, h]
    simp
  · intro d hd
    rw [htrack] at hd
    by_cases hpos : rooms (roomKey env) > 0
    · rw [if_pos hpos] at hd
      rw [List.eq_of_mem_replicate hd]
    · rw [if_neg hpos] at hd
      cases hd
  · intro d hd
    rw [hserv] at hd
    rw [List.eq_of_mem_replicate hd]

/-- C7 (witness): with an empty membership table, both publishers drop a
concrete envelope destined for `inst:acct1` without delivering anywhere. -/
theorem publish_zero_subscribers_witness :
    Track.emitToInstance (fun _r => 0)
      ⟨"1.0", "messages.upsert", "2026-01-01T00:00:00.000Z", JSVal.str "acct1",
        JSVal.null, JSVal.null, JSVal.null, JSVal.null, none, none, none⟩ = []
    ∧ Server.emitToInstance (fun _r => 0)
      ⟨"1.0", "messages.upsert", "2026-01-01T00:00:00.000Z", JSVal.str "acct1",
        JSVal.null, JSVal.null, JSVal.null, JSVal.null, none, none, none⟩ = [] :=
  (publish_zero_subscribers (fun _r => 0)
    ⟨"1.0", "messages.upsert", "2026-01-01T00:00:00.000Z", JSVal.str "acct1",
      JSVal.null, JSVal.null, JSVal.null, JSVal.null, none, none, none⟩).1 rfl

theorem getField_truthy (v : JSVal) (k : String) (h : getField v k ≠ JSVal.null) :
    truthy v = true := by
  cases v <;> first | rfl | exact absurd rfl h

namespace Idx

/-- The body literal of the `messages.upsert` branch of `formatEvent`,
factored out for the proofs (definitionally equal to the inline object the
branch builds from the extracted message record). -/
def upsertBody (m : Option Msg) : JSVal :=
  JSVal.obj
    [("id", jsOr (optMsg m (fun x => x.id)) JSVal.null),
     ("from", jsOr (optMsg m (fun x => x.fromVal)) JSVal.null),
     ("snippet", jsOr (jsAnd (optMsg m (fun x => x.text))
       (JSVal.str (jsSlice (jsToString (optMsg m (fun x => x.text))) 256))) JSVal.null),
     ("timestamp", jsOr (optMsg m (fun x => x.ts)) JSVal.null),
     ("attachmentsCount", jsOr (optMsg m (fun x => x.attachmentsCount)) (JSVal.num 0))]

end Idx

theorem formatEvent_upsert_body (cfg : Idx.Config) (t : String) (payload : JSVal) :
    (Idx.formatEvent cfg t "messages.upsert" payload none).body
      = Idx.upsertBody (Idx.extractMessage (jsOr (getField payload "message") payload)) := rfl

/-- C8 (counterexample): a `messages.upsert` message that has a `text` field
holding the empty string yields `body.snippet = null`, not the (empty)
truncation of the text — the source computes
`(m?.text && String(m.text).slice(0, 256)) || null` and the empty string is
falsy. -/
theorem snippet_empty_text :
    getField (Idx.formatEvent ⟨false, 512⟩ "2026-01-01T00:00:00.000Z" "messages.upsert"
      (JSVal.obj [("message", JSVal.obj [("id", JSVal.str "m1"), ("text", JSVal.str "")])])
      none).body "snippet" = JSVal.null
    ∧ JSVal.null ≠ JSVal.str (jsSlice "" 256) := by
  refine ⟨rfl, ?_⟩
  intro h
  have h2 : JSVal.null = JSVal.str "" := h
  exact JSVal.noConfusion h2

/-- C8 (amended): for every `messages.upsert` event whose message has a
non-empty string `text` field, the body has exactly the keys
`id, from, snippet, timestamp, attachmentsCount`, and `snippet` is the text
truncated to at most 256 characters (exactly 256 when the text is longer);
the concrete end-to-end example evaluates to the claimed body and instance. -/
theorem snippet_truncation_amended (cfg : Idx.Config) (t : String) (payload : JSVal)
    (s : String) (hs : s ≠ "")
    (htext : getField (jsOr (getField payload "message") payload) "text" = JSVal.str s) :
    objKeys (Idx.formatEvent cfg t "messages.upsert" payload none).body
      = ["id", "from", "snippet", "timestamp", "attachmentsCount"]
    ∧ getField (Idx.formatEvent cfg t "messages.upsert" payload none).body "snippet"
      = JSVal.str (jsSlice s 256)
    ∧ (jsSlice s 256).length = min 256 s.length
    ∧ (Idx.formatEvent ⟨false, 512⟩ "2026-02-02T00:00:00.000Z" "messages.upsert"
        (JSVal.obj [("message", JSVal.obj [("id", JSVal.str "m1"), ("from", JSVal.str "+100"),
          ("text", JSVal.str "hello"), ("timestamp", JSVal.num 123)]),
          ("instance", JSVal.str "acct2")]) none).body
      = JSVal.obj [("id", JSVal.str "m1"), ("from", JSVal.str "+100"),
          ("snippet", JSVal.str "hello"), ("timestamp", JSVal.num 123),
          ("attachmentsCount", JSVal.num 0)]
    ∧ (Idx.formatEvent ⟨false, 512⟩ "2026-02-02T00:00:00.000Z" "messages.upsert"
        (JSVal.obj [("message", JSVal.obj [("id", JSVal.str "m1"), ("from", JSVal.str "+100"),
          ("text", JSVal.str "hello"), ("timestamp", JSVal.num 123)]),
          ("instance", JSVal.str "acct2")]) none).instanceVal = JSVal.str "acct2" := by
  have hlen : (jsSlice s 256).length = min 256 s.length := by
    cases s with
    | mk data =>
      show (data.take 256).length = min 256 data.length
      simp
  have hmsg : truthy (jsOr (getField payload "message") payload) = true := by
    apply getField_truthy _ "text"
    rw [htext]
    exact fun hh => JSVal.noConfusion hh
  have htext2 : Idx.optMsg (Idx.extractMessage (jsOr (getField payload "message") payload))
      (fun x => x.text) = JSVal.str s := by
    unfold Idx.extractMessage
    rw [if_pos hmsg]
    unfold Idx.optMsg
    dsimp only
    rw [htext]
    simp [jsOr, truthy, hs]
  have hne : jsSlice s 256 ≠ "" := by
    intro hsl
    have h0 : (jsSlice s 256).length = 0 := by rw [hsl]; rfl
    rw [hlen] at h0
    have hpos : 0 < s.length := by
      cases s with
      | mk data =>
        cases data with
        | nil => exact absurd rfl hs
        | cons c cs => show 0 < (c :: cs).length; simp
    omega
  refine ⟨?_, ?_, hlen, rfl, rfl⟩
  · rw [formatEvent_upsert_body]
    rfl
  · rw [formatEvent_upsert_body]
    show findField _ "snippet" = _
    simp only [Idx.upsertBody, findField]
    rw [htext2]
    simp [findField, jsAnd, jsOr, truthy, jsToString, hs, hne]

/-- C8 (witness): the spec's end-to-end example, via the amended theorem at
text `"hello"`. -/
theorem snippet_truncation_witness :
    objKeys (Idx.formatEvent ⟨false, 512⟩ "2026-02-02T00:00:00.000Z" "messages.upsert"
        (JSVal.obj [("message", JSVal.obj [("id", JSVal.str "m1"), ("from", JSVal.str "+100"),
          ("text", JSVal.str "hello"), ("timestamp", JSVal.num 123)]),
          ("instance", JSVal.str "acct2")]) none).body
      = ["id", "from", "snippet", "timestamp", "attachmentsCount"]
    ∧ getField (Idx.formatEvent ⟨false, 512⟩ "2026-02-02T00:00:00.000Z" "messages.upsert"
        (JSVal.obj [("message", JSVal.obj [("id", JSVal.str "m1"), ("from", JSVal.str "+100"),
          ("text", JSVal.str "hello"), ("timestamp", JSVal.num 123)]),
          ("instance", JSVal.str "acct2")]) none).body "snippet"
      = JSVal.str (jsSlice "hello" 256) :=
  ⟨(snippet_truncation_amended ⟨false, 512⟩ "2026-02-02T00:00:00.000Z"
      (JSVal.obj [("message", JSVal.obj [("id", JSVal.str "m1"), ("from", JSVal.str "+100"),
        ("text", JSVal.str "hello"), ("timestamp", JSVal.num 123)]),
        ("instance", JSVal.str "acct2")]) "hello" (by decide) rfl).1,
   (snippet_truncation_amended ⟨false, 512⟩ "2026-02-02T00:00:00.000Z"
      (JSVal.obj [("message", JSVal.obj [("id", JSVal.str "m1"), ("from", JSVal.str "+100"),
        ("text", JSVal.str "hello"), ("timestamp", JSVal.num 123)]),
        ("instance", JSVal.str "acct2")]) "hello" (by decide) rfl).2.1⟩

/-- C10: `messages.upsert` accepts both the wrapper shape `{message: {...}}`
and a bare message object — when the (truthy) bare message has no truthy
`message` field of its own, the two shapes normalize to the same body. -/
theorem wrapper_bare_equivalence (cfg : Idx.Config) (t : String) (m : JSVal)
    (hm : truthy m = true) (hnomsg : truthy (getField m "message") = false) :
    (Idx.formatEvent cfg t "messages.upsert" (JSVal.obj [("message", m)]) none).body
      = (Idx.formatEvent cfg t "messages.upsert" m none).body := by
  have h1 : jsOr (getField (JSVal.obj [("message", m)]) "message")
      (JSVal.obj [("message", m)]) = m := by
    simp [getField, findField, jsOr, hm]
  have h2 : jsOr (getField m "message") m = m := by
    simp [jsOr, hnomsg]
  calc (Idx.formatEvent cfg t "messages.upsert" (JSVal.obj [("message", m)]) none).body
      = Idx.upsertBody (Idx.extractMessage (jsOr
          (getField (JSVal.obj [("message", m)]) "message")
          (JSVal.obj [("message", m)]))) := formatEvent_upsert_body cfg t _
    _ = Idx.upsertBody (Idx.extractMessage m) := by rw [h1]
    _ = Idx.upsertBody (Idx.extractMessage (jsOr (getField m "message") m)) := by rw [h2]
    _ = (Idx.formatEvent cfg t "messages.upsert" m none).body :=
        (formatEvent_upsert_body cfg t m).symm

/-- C10 (witness): the wrapper `{message: {id: "m1"}}` and the bare message
`{id: "m1"}` produce identical bodies. -/
theorem wrapper_bare_equivalence_witness :
    (Idx.formatEvent ⟨false, 512⟩ "2026-01-01T00:00:00.000Z" "messages.upsert"
      (JSVal.obj [("message", JSVal.obj [("id", JSVal.str "m1")])]) none).body
      = (Idx.formatEvent ⟨false, 512⟩ "2026-01-01T00:00:00.000Z" "messages.upsert"
        (JSVal.obj [("id", JSVal.str "m1")]) none).body :=
  wrapper_bare_equivalence ⟨false, 512⟩ "2026-01-01T00:00:00.000Z"
    (JSVal.obj [("id", JSVal.str "m1")]) rfl rfl
